import Mathlib

/-!
Shallow embedding of the gotty `webtty` bridge (src/webtty/webtty.go):
the frame dispatch of `handleMasterReadEvent`, the output encoding of
`handleSlaveReadEvent`, the audit state machine (`audit`, `filterASCII`)
and the two read pumps of `Run`.  Byte sequences are `List Nat`, the
mutable fields of the `WebTTY` struct are a `SessionState`, and the
effects of a call (writes to either end, resize calls, emitted audit
records, debug log lines, returned error) are collected in result
structures.
-/

namespace WebTTY

/-- Modelled from the spec: the concrete command-code bytes live in a
protocol file that is an external cross-endpoint contract (the spec fixes
only that the codes form one shared enumeration).  Representative distinct
values matching upstream gotty (ASCII digits) are used; no dispatch
behaviour below depends on the particular values, only on their
distinctness. -/
def Output : Nat := 49

/-- Modelled from the spec: command code for keyboard input sent by the
master (ASCII digit one upstream). -/
def Input : Nat := 49

/-- Modelled from the spec: command code for a master keep-alive ping. -/
def Ping : Nat := 50

/-- Modelled from the spec: command code for the pong reply to the master. -/
def Pong : Nat := 50

/-- Modelled from the spec: command code for a resize request. -/
def ResizeTerminal : Nat := 51

/-- The errors `handleMasterReadEvent`, `handleSlaveReadEvent` and the two
pumps of `Run` can produce.  Wrapped error strings are abstracted to one
constructor per `errors.New` / `errors.Wrapf` site; the unknown-type error
keeps the offending code byte, as the source interpolates it. -/
inductive Err
  | zeroLengthMasterRead
  | slaveWriteFailed
  | pongWriteFailed
  | resizeEmptyPayload
  | resizeMalformed
  | unknownMessageType (code : Nat)
  | masterWriteFailed
  | slaveClosed
  | masterClosed
deriving DecidableEq, Repr

/-- The audit direction argument; the source passes the strings
`"send"` and `"recive"` (typo preserved from the source). -/
inductive Direction
  | send
  | recive
deriving DecidableEq, Repr

/-- The mutable fields of the `WebTTY` struct that the dispatch and the
audit engine read or write: the `permitWrite` capability, the fixed
`columns`/`rows` (0 = unset), and the audit state. -/
structure SessionState where
  permitWrite : Bool
  columns : Int
  rows : Int
  auditBuffer : List Nat
  waitForAutocomplete : Bool
deriving DecidableEq, Repr

/-- Result of one `audit` call: the updated session state, the info-level
command records emitted (`log.Info("msg=", ...)` sites), and the number of
debug-level log lines emitted. -/
structure AuditResult where
  state : SessionState
  records : List (List Nat)
  debugCount : Nat
deriving DecidableEq, Repr

/-- `filterASCII` from the source: suppression of known noise chunks.
Byte indexing `msg[i]` is rendered as `msg.getD i 0`; every branch guards
the indices it uses exactly as the Go code does. -/
def filterASCII (action : Direction) (msg : List Nat) : Bool :=
  if 1 < msg.length ∧ msg.getD 0 0 = 13 ∧ msg.getD 1 0 = 10 ∧
      msg.getD (msg.length - 1) 0 = 32 ∧ msg.getD (msg.length - 2) 0 = 35 then
    false
  else if 1 < msg.length ∧ msg.getD 0 0 = 115 ∧ msg.getD 1 0 = 104 ∧
      msg.getD (msg.length - 1) 0 = 32 ∧ msg.getD (msg.length - 2) 0 = 35 then
    false
  else if msg.length = 2 ∧ msg.getD 0 0 = 13 ∧ msg.getD 1 0 = 10 then
    false
  else if action = Direction.send ∧ msg.length = 1 ∧ msg.getD 0 0 = 13 then
    false
  else
    true

/-- The bytes of the literal shell-prompt string `"sh-4.3#"` that
`audit` removes from a completed command before logging it. -/
def promptBytes : List Nat := [115, 104, 45, 52, 46, 51, 35]

/-- Worker for `stripPrompt`, structurally recursive on a fuel argument
so that it evaluates by kernel reduction; every step consumes at least one
byte, so fuel = length of the input suffices. -/
def stripPromptAux : Nat → List Nat → List Nat
  | 0, s => s
  | _ + 1, [] => []
  | fuel + 1, c :: rest =>
    if promptBytes.isPrefixOf (c :: rest) then
      stripPromptAux fuel ((c :: rest).drop promptBytes.length)
    else
      c :: stripPromptAux fuel rest

/-- `strings.Replace(s, "sh-4.3#", "", -1)`: remove every (left-to-right,
non-overlapping) occurrence of the prompt bytes. -/
def stripPrompt (s : List Nat) : List Nat := stripPromptAux s.length s

/-- The byte loop of the receive branch of `audit`: `n` is the length of
the whole chunk (`len(msg)` in the source), `i` the index of the current
byte.  Tab (9) sets the autocomplete flag; backspace (8) reassigns the
buffer to its own full-length slice (the no-op of the source, kept
verbatim as `take length`); carriage return (13) either completes a
command (last byte, non-empty buffer), discards the rest of the chunk
(first byte), or falls through; any other byte is appended to the buffer
and logged at debug level. -/
def reciveLoop (n : Nat) : List Nat → Nat → SessionState → AuditResult
  | [], _, st => ⟨st, [], 0⟩
  | s :: rest, i, st =>
    if s = 9 then
      reciveLoop n rest (i + 1) { st with waitForAutocomplete := true }
    else if s = 8 then
      reciveLoop n rest (i + 1)
        { st with auditBuffer := st.auditBuffer.take st.auditBuffer.length }
    else if s = 13 then
      if 0 < st.auditBuffer.length ∧ i = n - 1 then
        let r := reciveLoop n rest (i + 1) { st with auditBuffer := [] }
        ⟨r.state, stripPrompt st.auditBuffer :: r.records, r.debugCount⟩
      else if i = 0 then
        ⟨st, [], 1⟩
      else
        reciveLoop n rest (i + 1) st
    else
      let r := reciveLoop n rest (i + 1) { st with auditBuffer := st.auditBuffer ++ [s] }
      ⟨r.state, r.records, r.debugCount + 1⟩

/-- `audit` from the source.  A chunk rejected by `filterASCII` is a
complete no-op.  On the send direction a pending autocomplete expansion is
folded into the buffer and a debug rendering is emitted when the chunk is
longer than one byte and does not start with `#` (35); the source's full
reslice `msg[:len(msg)][0]` is kept verbatim as `take` before indexing.
On the receive direction a non-empty chunk is logged at debug level and
then processed byte by byte. -/
def audit (action : Direction) (st : SessionState) (msg : List Nat) : AuditResult :=
  if filterASCII action msg then
    match action with
    | Direction.send =>
      let st1 :=
        if st.waitForAutocomplete then
          { st with waitForAutocomplete := false, auditBuffer := st.auditBuffer ++ msg }
        else st
      let dbg := if 1 < msg.length ∧ (msg.take msg.length).getD 0 0 ≠ 35 then 1 else 0
      ⟨st1, [], dbg⟩
    | Direction.recive =>
      if 0 < msg.length then
        let r := reciveLoop msg.length msg 0 st
        ⟨r.state, r.records, r.debugCount + 1⟩
      else
        ⟨st, [], 0⟩
  else
    ⟨st, [], 0⟩

/-- The standard base64 alphabet (`A-Z`, `a-z`, `0-9`, `+`, `/`) as a map
from a sextet value to the ASCII code of its character. -/
def base64Char (n : Nat) : Nat :=
  if n < 26 then 65 + n
  else if n < 52 then 97 + (n - 26)
  else if n < 62 then 48 + (n - 52)
  else if n = 62 then 43
  else 47

/-- Embedding of `base64.StdEncoding.EncodeToString` as used by
`handleSlaveReadEvent`: three input bytes become four alphabet characters;
a trailing group of one or two bytes is encoded into two or three
characters and padded with `=` (61) to a multiple of four. -/
def base64Encode : List Nat → List Nat
  | [] => []
  | [b1] => [base64Char (b1 / 4), base64Char (b1 % 4 * 16), 61, 61]
  | [b1, b2] =>
    [base64Char (b1 / 4), base64Char (b1 % 4 * 16 + b2 / 16),
     base64Char (b2 % 16 * 4), 61]
  | b1 :: b2 :: b3 :: rest =>
    base64Char (b1 / 4) :: base64Char (b1 % 4 * 16 + b2 / 16) ::
    base64Char (b2 % 16 * 4 + b3 / 64) :: base64Char (b3 % 64) ::
    base64Encode rest

/-- The eight bits of a byte, most significant first (spec-level
definition used to state what standard base64 means). -/
def toBits (b : Nat) : List Nat :=
  [b / 128 % 2, b / 64 % 2, b / 32 % 2, b / 16 % 2, b / 8 % 2, b / 4 % 2, b / 2 % 2, b % 2]

/-- Collect a bit list into sextet values, six bits at a time (any
remainder shorter than six bits is dropped; callers pad first). -/
def group6 : List Nat → List Nat
  | b1 :: b2 :: b3 :: b4 :: b5 :: b6 :: rest =>
    (32 * b1 + 16 * b2 + 8 * b3 + 4 * b4 + 2 * b5 + b6) :: group6 rest
  | _ => []

/-- Zero-pad a bit list to a multiple of six bits. -/
def padBits (bits : List Nat) : List Nat :=
  bits ++ List.replicate ((6 - bits.length % 6) % 6) 0

/-- Pad an encoded character list with `=` (61) to a multiple of four. -/
def padB64 (chars : List Nat) : List Nat :=
  chars ++ List.replicate ((4 - chars.length % 4) % 4) 61

/-- Standard base64, stated from its bit-level definition as the spec
words it: concatenate the bits of the input bytes most significant first,
zero-pad to a multiple of six, map each sextet through the alphabet, and
pad the character string with `=` (61) to a multiple of four. -/
def base64Spec (data : List Nat) : List Nat :=
  padB64 ((group6 (padBits ((data.map toBits).flatten))).map base64Char)

/-- The JSON payload of a resize request, `argResizeTerminal` in the
source.  Go decodes the two numbers into `float64`; they are modelled as
rationals, which the handler truncates toward zero exactly as Go's
`int(float64)` conversion does. -/
structure argResizeTerminal where
  Columns : Rat
  Rows : Rat
deriving DecidableEq, Repr

/-- Go's `int(q)` conversion for a parsed JSON number: truncation toward
zero (`Int.tdiv` is T-division). -/
def goInt (q : Rat) : Int := Int.tdiv q.num (q.den : Int)

/-- The environment one `handleMasterReadEvent` call runs against:
whether a slave write succeeds, whether the pong write to the master
succeeds, and the outcome of `json.Unmarshal` on a resize payload (the
JSON decoder is external library code, abstracted as an oracle). -/
structure MasterEnv where
  slaveWriteOk : Bool
  pongWriteOk : Bool
  unmarshalResize : List Nat → Option argResizeTerminal

/-- Everything one `handleMasterReadEvent` call does: the updated state,
the payloads written to the slave, the frames written to the master, the
`ResizeTerminal(columns, rows)` calls, the audit records and debug lines,
and the returned error (`none` = Go `nil`). -/
structure MasterResult where
  state : SessionState
  slaveWrites : List (List Nat)
  masterWrites : List (List Nat)
  resizes : List (Int × Int)
  records : List (List Nat)
  debugCount : Nat
  error : Option Err

/-- `handleMasterReadEvent` from the source: reject a zero-length frame,
run the audit on the payload, then dispatch on the type byte.  Input is
dropped unless `permitWrite` holds and the payload is non-empty; Ping
answers with one Pong frame; ResizeTerminal is skipped entirely when both
fixed dimensions are set, otherwise validated and applied with the fixed
value winning per axis; any other code is a protocol error. -/
def handleMasterReadEvent (env : MasterEnv) (st : SessionState) (data : List Nat) :
    MasterResult :=
  match data with
  | [] => ⟨st, [], [], [], [], 0, some Err.zeroLengthMasterRead⟩
  | b :: payload =>
    let a := audit Direction.recive st payload
    let st1 := a.state
    if b = Input then
      if !st1.permitWrite then
        ⟨st1, [], [], [], a.records, a.debugCount, none⟩
      else if payload.length = 0 then
        ⟨st1, [], [], [], a.records, a.debugCount, none⟩
      else
        ⟨st1, [payload], [], [], a.records, a.debugCount,
         if env.slaveWriteOk then none else some Err.slaveWriteFailed⟩
    else if b = Ping then
      ⟨st1, [], [[Pong]], [], a.records, a.debugCount,
       if env.pongWriteOk then none else some Err.pongWriteFailed⟩
    else if b = ResizeTerminal then
      if st1.columns ≠ 0 ∧ st1.rows ≠ 0 then
        ⟨st1, [], [], [], a.records, a.debugCount, none⟩
      else if payload.length = 0 then
        ⟨st1, [], [], [], a.records, a.debugCount, some Err.resizeEmptyPayload⟩
      else
        match env.unmarshalResize payload with
        | none => ⟨st1, [], [], [], a.records, a.debugCount, some Err.resizeMalformed⟩
        | some args =>
          let rows := if st1.rows = 0 then goInt args.Rows else st1.rows
          let columns := if st1.columns = 0 then goInt args.Columns else st1.columns
          ⟨st1, [], [], [(columns, rows)], a.records, a.debugCount, none⟩
    else
      ⟨st1, [], [], [], a.records, a.debugCount, some (Err.unknownMessageType b)⟩

/-- Everything one `handleSlaveReadEvent` call does. -/
structure SlaveResult where
  state : SessionState
  masterWrites : List (List Nat)
  records : List (List Nat)
  debugCount : Nat
  error : Option Err

/-- `handleSlaveReadEvent` from the source: audit the chunk on the send
direction, then write a single frame `Output ++ base64(data)` to the
master; a failed write is wrapped into an error. -/
def handleSlaveReadEvent (masterWriteOk : Bool) (st : SessionState) (data : List Nat) :
    SlaveResult :=
  let a := audit Direction.send st data
  ⟨a.state, [Output :: base64Encode data], a.records, a.debugCount,
   if masterWriteOk then none else some Err.masterWriteFailed⟩

/-- One iteration of the slave pump of `Run` as seen from its
environment: the slave read either fails (with some underlying cause,
kept only to show it is discarded) or yields a chunk, in which case the
subsequent master write either succeeds or fails. -/
inductive SlaveStep
  | readErr (cause : Nat)
  | readOk (data : List Nat) (masterWriteOk : Bool)

/-- One iteration of the master pump of `Run` as seen from its
environment. -/
inductive MasterStep
  | readErr (cause : Nat)
  | readOk (env : MasterEnv) (data : List Nat)

/-- The slave pump of `Run`, driven by a finite script of read outcomes:
a read error terminates with `ErrSlaveClosed`; a handler error terminates
with that error; an exhausted script means the pump is still running
(`none`). -/
def slavePump : List SlaveStep → SessionState → Option Err × SessionState
  | [], st => (none, st)
  | SlaveStep.readErr _ :: _, st => (some Err.slaveClosed, st)
  | SlaveStep.readOk data ok :: rest, st =>
    let r := handleSlaveReadEvent ok st data
    match r.error with
    | some e => (some e, r.state)
    | none => slavePump rest r.state

/-- The master pump of `Run`, driven by a finite script of read outcomes:
a read error terminates with `ErrMasterClosed`; a dispatch error
terminates with that error; an exhausted script means the pump is still
running (`none`). -/
def masterPump : List MasterStep → SessionState → Option Err × SessionState
  | [], st => (none, st)
  | MasterStep.readErr _ :: _, st => (some Err.masterClosed, st)
  | MasterStep.readOk env data :: rest, st =>
    let r := handleMasterReadEvent env st data
    match r.error with
    | some e => (some e, r.state)
    | none => masterPump rest r.state

/-! Helper lemmas. -/

theorem reciveLoop_state_config (n : Nat) (msg : List Nat) (i : Nat) (st : SessionState) :
    (reciveLoop n msg i st).state.permitWrite = st.permitWrite ∧
    (reciveLoop n msg i st).state.columns = st.columns ∧
    (reciveLoop n msg i st).state.rows = st.rows := by
  induction msg generalizing i st with
  | nil => simp [reciveLoop]
  | cons s rest ih =>
    simp only [reciveLoop]
    split_ifs <;> simp_all

theorem audit_state_config (action : Direction) (st : SessionState) (msg : List Nat) :
    (audit action st msg).state.permitWrite = st.permitWrite ∧
    (audit action st msg).state.columns = st.columns ∧
    (audit action st msg).state.rows = st.rows := by
  cases action with
  | send => unfold audit; split_ifs <;> simp
  | recive =>
    unfold audit
    split_ifs <;> simp [reciveLoop_state_config msg.length msg 0 st]

theorem slavePump_append (pre suf : List SlaveStep) (st : SessionState)
    (h : (slavePump pre st).1 = none) :
    slavePump (pre ++ suf) st = slavePump suf (slavePump pre st).2 := by
  induction pre generalizing st with
  | nil => simp [slavePump]
  | cons step t ih =>
    cases step with
    | readErr c => simp [slavePump] at h
    | readOk data ok =>
      cases ok with
      | false => simp [slavePump, handleSlaveReadEvent] at h
      | true =>
        simp only [List.cons_append, slavePump, handleSlaveReadEvent] at h ⊢
        exact ih _ h

theorem masterPump_append (pre suf : List MasterStep) (st : SessionState)
    (h : (masterPump pre st).1 = none) :
    masterPump (pre ++ suf) st = masterPump suf (masterPump pre st).2 := by
  induction pre generalizing st with
  | nil => simp [masterPump]
  | cons step t ih =>
    cases step with
    | readErr c => simp [masterPump] at h
    | readOk env data =>
      simp only [List.cons_append, masterPump] at h ⊢
      cases he : (handleMasterReadEvent env st data).error with
      | some e => simp [he] at h
      | none => simp only [he] at h ⊢; exact ih _ h

theorem flatten_map_toBits_length (l : List Nat) :
    ((l.map toBits).flatten).length = 8 * l.length := by
  induction l with
  | nil => simp
  | cons b t ih => simp [toBits, ih]; omega

theorem padBits_append24 (l t : List Nat) (h : l.length = 24) :
    padBits (l ++ t) = l ++ padBits t := by
  unfold padBits
  rw [List.append_assoc, List.length_append, h]
  have : (6 - (24 + t.length) % 6) % 6 = (6 - t.length % 6) % 6 := by omega
  rw [this]

theorem padB64_append4 (l t : List Nat) (h : l.length = 4) :
    padB64 (l ++ t) = l ++ padB64 t := by
  unfold padB64
  rw [List.append_assoc, List.length_append, h]
  have : (4 - (4 + t.length) % 4) % 4 = (4 - t.length % 4) % 4 := by omega
  rw [this]

theorem padB64_cons4 (c1 c2 c3 c4 : Nat) (t : List Nat) :
    padB64 (c1 :: c2 :: c3 :: c4 :: t) = c1 :: c2 :: c3 :: c4 :: padB64 t := by
  simpa using padB64_append4 [c1, c2, c3, c4] t rfl

theorem base64Spec_cons3 (b1 b2 b3 : Nat) (rest : List Nat) :
    base64Spec (b1 :: b2 :: b3 :: rest) =
      base64Char (32 * (b1 / 128 % 2) + 16 * (b1 / 64 % 2) + 8 * (b1 / 32 % 2) +
          4 * (b1 / 16 % 2) + 2 * (b1 / 8 % 2) + b1 / 4 % 2) ::
      base64Char (32 * (b1 / 2 % 2) + 16 * (b1 % 2) + 8 * (b2 / 128 % 2) +
          4 * (b2 / 64 % 2) + 2 * (b2 / 32 % 2) + b2 / 16 % 2) ::
      base64Char (32 * (b2 / 8 % 2) + 16 * (b2 / 4 % 2) + 8 * (b2 / 2 % 2) +
          4 * (b2 % 2) + 2 * (b3 / 128 % 2) + b3 / 64 % 2) ::
      base64Char (32 * (b3 / 32 % 2) + 16 * (b3 / 16 % 2) + 8 * (b3 / 8 % 2) +
          4 * (b3 / 4 % 2) + 2 * (b3 / 2 % 2) + b3 % 2) ::
      base64Spec rest := by
  unfold base64Spec
  rw [List.map_cons, List.map_cons, List.map_cons, List.flatten_cons, List.flatten_cons,
    List.flatten_cons]
  rw [show toBits b1 ++ (toBits b2 ++ (toBits b3 ++ (rest.map toBits).flatten)) =
      (toBits b1 ++ toBits b2 ++ toBits b3) ++ (rest.map toBits).flatten from by
    simp [List.append_assoc]]
  rw [padBits_append24 _ _ (by simp [toBits])]
  simp [toBits, group6, padB64_cons4]

theorem base64Encode_eq_base64Spec (data : List Nat) (h : ∀ b ∈ data, b < 256) :
    base64Encode data = base64Spec data := by
  match data with
  | [] => rfl
  | [b1] =>
    have hb1 : b1 < 256 := h b1 (by simp)
    simp [base64Encode, base64Spec, padBits, padB64, toBits, group6, List.replicate]
    refine ⟨?_, ?_⟩ <;> (congr 1; omega)
  | [b1, b2] =>
    have hb1 : b1 < 256 := h b1 (by simp)
    have hb2 : b2 < 256 := h b2 (by simp)
    simp [base64Encode, base64Spec, padBits, padB64, toBits, group6, List.replicate]
    refine ⟨?_, ?_, ?_⟩ <;> (congr 1; omega)
  | b1 :: b2 :: b3 :: rest =>
    have hb1 : b1 < 256 := h b1 (by simp)
    have hb2 : b2 < 256 := h b2 (by simp)
    have hb3 : b3 < 256 := h b3 (by simp)
    have ih := base64Encode_eq_base64Spec rest (fun b hb => h b (by simp [hb]))
    rw [base64Spec_cons3]
    show base64Char (b1 / 4) :: base64Char (b1 % 4 * 16 + b2 / 16) ::
        base64Char (b2 % 16 * 4 + b3 / 64) :: base64Char (b3 % 64) :: base64Encode rest = _
    rw [ih]
    simp only [List.cons.injEq]
    refine ⟨?_, ?_, ?_, ?_, trivial⟩ <;> (congr 1; omega)
termination_by data.length

/-! Claim theorems, witnesses and counterexamples. -/

/-- A session with writes not permitted, no fixed dimensions and empty
audit state; concrete input for witnesses and counterexamples. -/
def st0 : SessionState := ⟨false, 0, 0, [], false⟩

/-- A session with both dimensions fixed (nonzero). -/
def stFixed : SessionState := ⟨false, 1, 1, [], false⟩

/-- An environment whose writes succeed and whose JSON oracle rejects
every payload. -/
def envNone : MasterEnv := ⟨true, true, fun _ => none⟩

/-- An environment whose writes succeed and whose JSON oracle parses
every payload as columns 80, rows 24. -/
def env80 : MasterEnv := ⟨true, true, fun _ => some ⟨80, 24⟩⟩

/-- Claim C1: for every master frame whose type byte is `Input`, the
payload is written to the slave iff `permitWrite` is true and the payload
is non-empty; in every other case the frame is silently dropped — no
slave write, no master write, no resize and no returned error. -/
theorem claim1_input_forwarding (env : MasterEnv) (st : SessionState) (payload : List Nat) :
    (handleMasterReadEvent env st (Input :: payload)).slaveWrites =
      (if st.permitWrite ∧ payload ≠ [] then [payload] else []) ∧
    (handleMasterReadEvent env st (Input :: payload)).masterWrites = [] ∧
    (handleMasterReadEvent env st (Input :: payload)).resizes = [] ∧
    (handleMasterReadEvent env st (Input :: payload)).error =
      (if st.permitWrite ∧ payload ≠ [] then
        (if env.slaveWriteOk then none else some Err.slaveWriteFailed)
      else none) := by
  have hc := (audit_state_config Direction.recive st payload).1
  cases hp : st.permitWrite <;> cases payload <;>
    simp [handleMasterReadEvent, hp, hc]

/-- Claim C2: for every byte sequence D read from the slave, the single
frame the handler writes to the master is exactly the `Output` type byte
followed by the standard (bit-level) base64 encoding of D, and on success
no error is returned. -/
theorem claim2_output_frame (st : SessionState) (data : List Nat)
    (h : ∀ b ∈ data, b < 256) :
    (handleSlaveReadEvent true st data).masterWrites = [Output :: base64Spec data] ∧
    (handleSlaveReadEvent true st data).error = none := by
  refine ⟨?_, rfl⟩
  simp [handleSlaveReadEvent, base64Encode_eq_base64Spec data h]

/-- Witness for C2 at the bytes of `"Man"`. -/
theorem claim2_output_frame_witness :
    (handleSlaveReadEvent true st0 [77, 97, 110]).masterWrites =
      [Output :: base64Spec [77, 97, 110]] :=
  (claim2_output_frame st0 [77, 97, 110] (by decide)).1

/-- Counterexample to claim C3 as stated: when both fixed dimensions are
nonzero the source leaves the ResizeTerminal case before any validation,
so a frame with an empty (hence invalid) payload is accepted silently —
no protocol error is returned, contradicting the claim's unconditional
"returns a protocol error". -/
theorem claim3_counterexample :
    (handleMasterReadEvent envNone stFixed [ResizeTerminal]).error = none := by decide

/-- Claim C3 amended: for every ResizeTerminal frame whose payload is
empty or rejected by the JSON decoder, no resize and no write happens; a
protocol error is returned exactly when not both fixed dimensions are
nonzero (when both are set the frame is skipped before validation and no
error is returned). -/
theorem claim3_resize_invalid (env : MasterEnv) (st : SessionState) (payload : List Nat)
    (h : payload = [] ∨ env.unmarshalResize payload = none) :
    (handleMasterReadEvent env st (ResizeTerminal :: payload)).resizes = [] ∧
    (handleMasterReadEvent env st (ResizeTerminal :: payload)).slaveWrites = [] ∧
    (handleMasterReadEvent env st (ResizeTerminal :: payload)).masterWrites = [] ∧
    (handleMasterReadEvent env st (ResizeTerminal :: payload)).error =
      (if st.columns ≠ 0 ∧ st.rows ≠ 0 then none
       else some (if payload = [] then Err.resizeEmptyPayload else Err.resizeMalformed)) := by
  have hc := audit_state_config Direction.recive st payload
  by_cases hpay : payload = []
  · subst hpay
    simp only [handleMasterReadEvent, Input, Ping, ResizeTerminal, hc.2.1, hc.2.2]
    norm_num
    split_ifs <;> simp
  · have hun : env.unmarshalResize payload = none := h.resolve_left hpay
    simp [handleMasterReadEvent, Input, Ping, ResizeTerminal, hc.2.1, hc.2.2,
      List.length_eq_zero, hpay, hun]
    split_ifs <;> simp

/-- Witness for C3 (amended) at an empty payload with no fixed
dimensions: the dispatch reports an empty-payload protocol error. -/
theorem claim3_resize_invalid_witness :
    (handleMasterReadEvent envNone st0 [ResizeTerminal]).error =
      some Err.resizeEmptyPayload := by
  have h := claim3_resize_invalid envNone st0 [] (Or.inl rfl)
  rw [h.2.2.2]
  decide

/-- Claim C4: for every well-formed ResizeTerminal frame (non-empty
payload accepted by the JSON decoder) the dispatch returns no error and
performs no write; if both fixed dimensions are nonzero the resize is
never invoked, otherwise it is invoked exactly once with, per axis, the
fixed value when nonzero and the parsed number truncated toward zero when
the fixed value is zero. -/
theorem claim4_resize_wellformed (env : MasterEnv) (st : SessionState) (payload : List Nat)
    (args : argResizeTerminal) (hne : payload ≠ [])
    (hp : env.unmarshalResize payload = some args) :
    (handleMasterReadEvent env st (ResizeTerminal :: payload)).error = none ∧
    (handleMasterReadEvent env st (ResizeTerminal :: payload)).slaveWrites = [] ∧
    (handleMasterReadEvent env st (ResizeTerminal :: payload)).masterWrites = [] ∧
    (handleMasterReadEvent env st (ResizeTerminal :: payload)).resizes =
      (if st.columns ≠ 0 ∧ st.rows ≠ 0 then []
       else [((if st.columns = 0 then goInt args.Columns else st.columns),
              (if st.rows = 0 then goInt args.Rows else st.rows))]) := by
  have hc := audit_state_config Direction.recive st payload
  simp [handleMasterReadEvent, Input, Ping, ResizeTerminal, hc.2.1, hc.2.2,
    List.length_eq_zero, hne, hp]
  split_ifs <;> simp

/-- Witness for C4, the scenario of the spec: no fixed dimensions, a
payload parsed as columns 80 and rows 24; resize is invoked exactly once
with (80, 24). -/
theorem claim4_resize_wellformed_witness :
    (handleMasterReadEvent env80 st0 (ResizeTerminal :: [123])).resizes = [(80, 24)] := by
  have h := claim4_resize_wellformed env80 st0 [123] ⟨80, 24⟩ (by decide) rfl
  rw [h.2.2.2]
  norm_num [st0, goInt]

theorem getD_snoc2_pen (mid : List Nat) (u v d : Nat) :
    (mid ++ [u, v]).getD mid.length d = u := by
  induction mid with
  | nil => rfl
  | cons a t ih => simpa using ih

theorem getD_snoc2_last (mid : List Nat) (u v d : Nat) :
    (mid ++ [u, v]).getD (mid.length + 1) d = v := by
  induction mid with
  | nil => rfl
  | cons a t ih => simpa using ih

theorem filterASCII_tail_pattern (x y : Nat) (mid : List Nat) :
    (x :: y :: (mid ++ [35, 32]) : List Nat).getD
        ((x :: y :: (mid ++ [35, 32]) : List Nat).length - 1) 0 = 32 ∧
    (x :: y :: (mid ++ [35, 32]) : List Nat).getD
        ((x :: y :: (mid ++ [35, 32]) : List Nat).length - 2) 0 = 35 := by
  have hl : (x :: y :: (mid ++ [35, 32]) : List Nat).length = mid.length + 4 := by
    simp
  rw [hl]
  constructor
  · show (x :: y :: (mid ++ [35, 32]) : List Nat).getD (mid.length + 1 + 1 + 1) 0 = 32
    rw [List.getD_cons_succ, List.getD_cons_succ]
    exact getD_snoc2_last mid 35 32 0
  · show (x :: y :: (mid ++ [35, 32]) : List Nat).getD (mid.length + 1 + 1) 0 = 35
    rw [List.getD_cons_succ, List.getD_cons_succ]
    exact getD_snoc2_pen mid 35 32 0

/-- Claim C5: within a receive-direction chunk of length `n`, a carriage
return (13) at index `i` behaves in exactly three ways.  Last byte of the
chunk with a non-empty buffer: one record is emitted, the prompt substring
removed, and the buffer is cleared.  First byte of the chunk (when the
previous case does not apply): the whole remaining chunk is discarded with
no record and the buffer unchanged (only the debug line of the source is
counted).  Otherwise: the byte has no effect at all — processing
continues exactly as if it were skipped. -/
theorem claim5_cr_cases (n i : Nat) (rest : List Nat) (st : SessionState)
    (hlen : i + 1 + rest.length = n) :
    ((0 < st.auditBuffer.length ∧ i = n - 1) →
      reciveLoop n (13 :: rest) i st =
        ⟨{ st with auditBuffer := [] }, [stripPrompt st.auditBuffer], 0⟩) ∧
    (¬(0 < st.auditBuffer.length ∧ i = n - 1) → i = 0 →
      reciveLoop n (13 :: rest) i st = ⟨st, [], 1⟩) ∧
    (¬(0 < st.auditBuffer.length ∧ i = n - 1) → i ≠ 0 →
      reciveLoop n (13 :: rest) i st = reciveLoop n rest (i + 1) st) := by
  refine ⟨fun hb => ?_, fun hb h0 => ?_, fun hb h0 => ?_⟩
  · have hrest : rest = [] := by
      have := hb.2
      have : rest.length = 0 := by omega
      exact List.length_eq_zero.mp this
    subst hrest
    simp [reciveLoop, hb]
  · subst h0
    simp [reciveLoop, hb]
  · simp [reciveLoop, hb, h0]

/-- Witness for C5: the chunk `"ls", CR` starting from a session whose
buffer is empty ends with one record `"ls"` and a cleared buffer; the
first-byte case discards `CR, "x"`; a mid-chunk CR is skipped. -/
theorem claim5_cr_cases_witness :
    reciveLoop 3 [13] 2 ⟨false, 0, 0, [108, 115], false⟩ =
      ⟨⟨false, 0, 0, [], false⟩, [[108, 115]], 0⟩ ∧
    reciveLoop 2 [13, 120] 0 st0 = ⟨st0, [], 1⟩ := by
  constructor
  · have h := (claim5_cr_cases 3 2 [] ⟨false, 0, 0, [108, 115], false⟩ (by decide)).1
      (by decide)
    rw [h]
    decide
  · exact (claim5_cr_cases 2 0 [120] st0 (by decide)).2.1 (by decide) rfl

/-- Claim C6: a chunk matching any of the four noise patterns — starts
with CR,LF and ends with `#`,SPACE; starts with `s`,`h` and ends with
`#`,SPACE; is exactly CR,LF; is a single CR on the send direction — makes
the audit entry point a complete no-op: same state, no record, no log
line. -/
theorem claim6_noise_ignored (action : Direction) (st : SessionState) (msg : List Nat)
    (h : (∃ mid, msg = 13 :: 10 :: (mid ++ [35, 32])) ∨
         (∃ mid, msg = 115 :: 104 :: (mid ++ [35, 32])) ∨
         msg = [13, 10] ∨
         (action = Direction.send ∧ msg = [13])) :
    audit action st msg = ⟨st, [], 0⟩ := by
  have hf : filterASCII action msg = false := by
    rcases h with ⟨mid, rfl⟩ | ⟨mid, rfl⟩ | rfl | ⟨ha, rfl⟩
    · have ht := filterASCII_tail_pattern 13 10 mid
      unfold filterASCII
      rw [if_pos ⟨by simp, rfl, rfl, ht.1, ht.2⟩]
    · have ht := filterASCII_tail_pattern 115 104 mid
      unfold filterASCII
      rw [if_neg, if_pos ⟨by simp, rfl, rfl, ht.1, ht.2⟩]
      simp
    · cases action <;> decide
    · subst ha
      decide
  unfold audit
  rw [hf]
  simp

/-- Witness for C6 at the bare CRLF chunk on the receive direction. -/
theorem claim6_noise_ignored_witness :
    audit Direction.recive st0 [13, 10] = ⟨st0, [], 0⟩ :=
  claim6_noise_ignored Direction.recive st0 [13, 10] (Or.inr (Or.inr (Or.inl rfl)))

/-- Claim C7: processing a backspace byte (8) in the receive loop leaves
the audit buffer — and everything else — exactly unchanged: the step is
identical to skipping the byte.  The source reassigns the buffer to its
own full-length slice, a no-op. -/
theorem claim7_backspace_no_mutation (n i : Nat) (rest : List Nat) (st : SessionState) :
    reciveLoop n (8 :: rest) i st = reciveLoop n rest (i + 1) st := by
  simp [reciveLoop, List.take_length]

/-- Counterexample to claim C8 as stated: the audit pass runs on every
frame's payload before dispatch, so a Ping frame carrying a payload byte
mutates the session's audit buffer — contradicting the claim's "no change
to session state" for every Ping frame. -/
theorem claim8_counterexample :
    (handleMasterReadEvent envNone st0 [Ping, 97]).state.auditBuffer ≠ st0.auditBuffer := by
  decide

/-- Claim C8 amended: every Ping frame produces exactly one Pong frame on
the master, no slave write and no resize; the session state changes only
by the audit pass applied to every frame's payload (in particular a
payload-free Ping leaves it unchanged); a failure of the Pong write
terminates the pump with a wrapped error. -/
theorem claim8_ping_pong (env : MasterEnv) (st : SessionState) (payload : List Nat) :
    (handleMasterReadEvent env st (Ping :: payload)).masterWrites = [[Pong]] ∧
    (handleMasterReadEvent env st (Ping :: payload)).slaveWrites = [] ∧
    (handleMasterReadEvent env st (Ping :: payload)).resizes = [] ∧
    (handleMasterReadEvent env st (Ping :: payload)).state =
      (audit Direction.recive st payload).state ∧
    (handleMasterReadEvent env st (Ping :: payload)).error =
      (if env.pongWriteOk then none else some Err.pongWriteFailed) := by
  simp [handleMasterReadEvent, Input, Ping]

/-- Claim C9: whenever a pump is still running, a failed read terminates
the slave pump with exactly `ErrSlaveClosed` and the master pump with
exactly `ErrMasterClosed`, whatever the underlying cause of the read
failure — the cause does not appear in the result. -/
theorem claim9_read_errors_normalized (preS restS : List SlaveStep)
    (preM restM : List MasterStep) (cause : Nat) (stS stM : SessionState)
    (hS : (slavePump preS stS).1 = none) (hM : (masterPump preM stM).1 = none) :
    (slavePump (preS ++ SlaveStep.readErr cause :: restS) stS).1 = some Err.slaveClosed ∧
    (masterPump (preM ++ MasterStep.readErr cause :: restM) stM).1 = some Err.masterClosed := by
  constructor
  · rw [slavePump_append _ _ _ hS]
    rfl
  · rw [masterPump_append _ _ _ hM]
    rfl

/-- Witness for C9: one successful chunk on each pump, then a read error
with an arbitrary cause byte. -/
theorem claim9_read_errors_normalized_witness :
    (slavePump ([SlaveStep.readOk [104] true] ++ SlaveStep.readErr 7 :: []) st0).1 =
      some Err.slaveClosed ∧
    (masterPump ([MasterStep.readOk envNone [50]] ++ MasterStep.readErr 7 :: []) st0).1 =
      some Err.masterClosed :=
  claim9_read_errors_normalized [SlaveStep.readOk [104] true] []
    [MasterStep.readOk envNone [50]] [] 7 st0 st0 (by decide) (by decide)

/-- Claim C10: for every non-empty master frame the audit entry point
runs on the payload (all bytes after the type byte) whatever the type
byte and the dispatch outcome are: the session state and the emitted
audit records of the call are exactly those of the audit pass, so the
payloads of Ping frames, unknown-type frames and permission-dropped Input
frames still drive the audit state machine. -/
theorem claim10_audit_always_runs (env : MasterEnv) (st : SessionState) (data : List Nat)
    (h : data ≠ []) :
    (handleMasterReadEvent env st data).state =
      (audit Direction.recive st (data.drop 1)).state ∧
    (handleMasterReadEvent env st data).records =
      (audit Direction.recive st (data.drop 1)).records := by
  match data with
  | [] => exact absurd rfl h
  | b :: payload =>
    simp only [handleMasterReadEvent, List.drop_succ_cons, List.drop_zero]
    split_ifs <;> (try split) <;> simp

/-- Witness for C10 at an unknown-type frame: the payload byte lands in
the audit buffer even though the frame is rejected with a protocol
error. -/
theorem claim10_audit_always_runs_witness :
    (handleMasterReadEvent envNone st0 [255, 97]).state =
      (audit Direction.recive st0 [97]).state ∧
    (handleMasterReadEvent envNone st0 [255, 97]).state.auditBuffer = [97] :=
  ⟨(claim10_audit_always_runs envNone st0 [255, 97] (by decide)).1, by decide⟩

end WebTTY
